import Mathlib

/-!
Shallow embedding of `src/interrupt.rs` of the `esp-idf-hal` repository.

The Rust module provides ISR-context detection, a redirectable ISR yielder
slot, task notification wrappers, a critical section with scope guard, a
free-standing interrupt-free closure runner, and a raw mutex.

Modelling conventions:
  - External FreeRTOS/ESP-IDF kernel calls are recorded as `Event`s; where a
    kernel call returns data (notify results, wait results, ISR status), the
    returned data is an explicit oracle parameter of the embedded function.
  - Raw pointers stored in the `ISR_YIELDER` atomic cell are modelled as
    natural numbers, with `0` standing for the null pointer.  Function
    pointers obtained from `transmute` of a live Rust `fn` item are never
    null, which corresponds to the nonzero side-conditions below.
  - The Rust `cfg` conditional-compilation flags (`esp32c3`,
    `esp_idf_version_major = "4"`, `esp_idf_version = "4.3"`) become a
    `Config` record so every compiled variant of the source is covered.
-/

namespace EspIdfHal

/-- Compile-time configuration flags used by `cfg` attributes in the source. -/
structure Config where
  esp32c3 : Bool
  espIdfVersionMajor4 : Bool
  espIdfVersion43 : Bool
deriving DecidableEq

/-- Observable primitive operations: kernel calls and accesses to the
`ISR_YIELDER` atomic cell, with the arguments the source passes. -/
inductive Event where
  | yielderLoad (word : Nat)
  | yielderSwap (new old : Nat)
  | callYielder (fn : Nat) (args : List Nat)
  | vPortYieldFromISR
  | vPortEvaluateYieldFromISR (arg : Nat)
  | frxtSetupSwitch
  | vPortYield
  | xTaskNotifyWaitCall (clearOnEntry clearOnExit ticks : Nat)
  | xTaskGenericNotifyWaitCall (index clearOnEntry clearOnExit ticks : Nat)
  | xTaskGenericNotifyFromISR43 (task bits action : Nat)
  | xTaskGenericNotifyFromISRCall (task index bits action : Nat)
  | xTaskGenericNotify43 (task bits action : Nat)
  | xTaskGenericNotifyCall (task index bits action : Nat)
  | vPortEnterCriticalNoArg
  | vPortEnterCriticalMux (id : Nat)
  | xPortEnterCriticalTimeoutCall (id : Nat) (timeout : Int)
  | vPortExitCriticalNoArg
  | vPortExitCriticalMux (id : Nat)
deriving DecidableEq

/-- State visible to the yielder / notification part of the module:
whether `xPortInIsrContext()` reports nonzero for the calling core, the
word currently stored in the `ISR_YIELDER` atomic cell (`0` = null), and
the boolean flag used by the spec-modelled recording override. -/
structure YState where
  inIsr : Bool
  slot : Nat
  signalled : Bool
deriving DecidableEq

/-- Rust `active()`: `xPortInIsrContext() != 0`. -/
def active (s : YState) : Bool :=
  s.inIsr

/-- The null test performed on the word loaded from `ISR_YIELDER`:
`if ptr.is_null() { None } else { Some(transmute(ptr)) }`. -/
def decodeYielder (w : Nat) : Option Nat :=
  if w = 0 then none else some w

/-- The `transmute` performed when storing into `ISR_YIELDER`:
`Some(yielder)` becomes the pointer itself, `None` becomes null. -/
def encodeYielder : Option Nat → Nat
  | some f => f
  | none => 0

/-- Rust `get_isr_yielder()`: when in ISR context, load the slot word and
null-test it; in task context return `None` without touching the slot. -/
def get_isr_yielder (s : YState) : Option Nat × List Event :=
  if active s then
    (decodeYielder s.slot, [Event.yielderLoad s.slot])
  else
    (none, [])

/-- Rust `set_isr_yielder(yielder)`: when in ISR context, swap the encoded
pointer into the slot and return the decoded previous value; in task
context return `None` and perform no swap. -/
def set_isr_yielder (yielder : Option Nat) (s : YState) :
    Option Nat × YState × List Event :=
  if active s then
    let ptr := encodeYielder yielder
    let old := s.slot
    (decodeYielder old, { s with slot := ptr }, [Event.yielderSwap ptr old])
  else
    (none, s, [])

namespace task

/-- Rust `task::do_yield()`.  In ISR context it consults
`get_isr_yielder`; an installed override is invoked (the stored word is a
nullary function pointer, so the call passes no arguments), otherwise the
kernel default ISR yield for the configuration is issued.  In task context
it issues `vPortYield()` without consulting the slot.  `env` gives the
behaviour of the installed override functions on the modelled state. -/
def do_yield (env : Nat → YState → YState) (cfg : Config) (s : YState) :
    YState × List Event :=
  if active s then
    if cfg.esp32c3 then
      match get_isr_yielder s with
      | (some f, ev) => (env f s, ev ++ [Event.callYielder f []])
      | (none, ev) => (s, ev ++ [Event.vPortYieldFromISR])
    else
      match get_isr_yielder s with
      | (some f, ev) => (env f s, ev ++ [Event.callYielder f []])
      | (none, ev) =>
        if cfg.espIdfVersionMajor4 then
          (s, ev ++ [Event.vPortEvaluateYieldFromISR 0])
        else
          (s, ev ++ [Event.frxtSetupSwitch])
  else
    (s, [Event.vPortYield])

/-- The `portMAX_DELAY` sentinel (`u32::MAX` ticks): wait forever. -/
def portMaxDelay : Nat := 4294967295

/-- Modelled from the spec: the duration-to-ticks conversion performed by
`crate::delay::TickType::from`, whose source is not under `src/`.  Per the
spec the kernel wait takes a tick-based timeout; absence of a duration maps
to the wait-forever sentinel.  Durations are already expressed in ticks
here, since no claim depends on the unit conversion itself. -/
def tickTypeFrom : Option Nat → Nat
  | none => portMaxDelay
  | some ticks => ticks

/-- FreeRTOS `eNotifyAction_eSetBits` (OR the bits into the word). -/
def eNotifyActionSetBits : Nat := 1

/-- The kernel wait call issued by `wait_notification`: `xTaskNotifyWait`
on version 4.3, `xTaskGenericNotifyWait` (index 0) otherwise, always with
`0` bits cleared on entry and `u32::MAX` bits cleared on exit. -/
def waitEvent (cfg : Config) (ticks : Nat) : Event :=
  if cfg.espIdfVersion43 then
    Event.xTaskNotifyWaitCall 0 4294967295 ticks
  else
    Event.xTaskGenericNotifyWaitCall 0 0 4294967295 ticks

/-- Rust `task::wait_notification(duration)`.  `kRet` is the kernel wait
call's return value and `kWord` the notification word it wrote through the
out-pointer.  Returns `Some(word)` exactly when the kernel reported a
notification (`notified != 0`). -/
def wait_notification (cfg : Config) (kRet : Int) (kWord : Nat)
    (duration : Option Nat) : Option Nat × List Event :=
  if kRet ≠ 0 then
    (some kWord, [waitEvent cfg (tickTypeFrom duration)])
  else
    (none, [waitEvent cfg (tickTypeFrom duration)])

/-- Rust `task::wait_any_notification()`: loop on
`wait_notification(None)`, breaking only on a `Some` value that is nonzero.
The kernel's successive wait outcomes are given as the finite oracle list
`responses`; the boolean result records whether the loop has returned
within those outcomes (`false` = still looping when the oracle ran out). -/
def wait_any_notification (cfg : Config) :
    List (Int × Nat) → Bool × List Event
  | [] => (false, [])
  | r :: rest =>
    let w := wait_notification cfg r.1 r.2 none
    match w.1 with
    | some v =>
      if v ≠ 0 then (true, w.2)
      else
        let c := wait_any_notification cfg rest
        (c.1, w.2 ++ c.2)
    | none =>
      let c := wait_any_notification cfg rest
      (c.1, w.2 ++ c.2)

/-- The `xTaskGenericNotifyFromISR` call issued by `notify` in ISR
context: the 4.3 argument layout or the indexed one, always with action
`eSetBits` and a null previous-value pointer. -/
def notifyFromIsrEvent (cfg : Config) (tsk bits : Nat) : Event :=
  if cfg.espIdfVersion43 then
    Event.xTaskGenericNotifyFromISR43 tsk bits eNotifyActionSetBits
  else
    Event.xTaskGenericNotifyFromISRCall tsk 0 bits eNotifyActionSetBits

/-- The `xTaskGenericNotify` call issued by `notify` in task context. -/
def notifyTaskEvent (cfg : Config) (tsk bits : Nat) : Event :=
  if cfg.espIdfVersion43 then
    Event.xTaskGenericNotify43 tsk bits eNotifyActionSetBits
  else
    Event.xTaskGenericNotifyCall tsk 0 bits eNotifyActionSetBits

/-- Rust `task::notify(task, notification)`.  In ISR context it issues the
`xTaskGenericNotifyFromISR` variant for the configuration; `kWoken` is the
value the kernel wrote into `higher_prio_task_woken` and `kRet` the
notify call's return value.  When `kWoken` is nonzero, `do_yield()` runs
before returning.  In task context it issues `xTaskGenericNotify` and
never yields.  The result is `notified != 0`. -/
def notify (env : Nat → YState → YState) (cfg : Config) (kRet kWoken : Int)
    (tsk bits : Nat) (s : YState) : Bool × YState × List Event :=
  if active s then
    if kWoken ≠ 0 then
      let y := do_yield env cfg s
      (decide (kRet ≠ 0), y.1, notifyFromIsrEvent cfg tsk bits :: y.2)
    else
      (decide (kRet ≠ 0), s, [notifyFromIsrEvent cfg tsk bits])
  else
    (decide (kRet ≠ 0), s, [notifyTaskEvent cfg tsk bits])

end task

/-! ## Critical sections

The kernel state tracked for `CriticalSection` claims: `muxes` holds the
per-instance spinlock nesting count of every `portMUX_TYPE` record
allocated so far (indexed by allocation order, so `muxes.length` is the
next fresh identity), and `irqDepth` is the calling core's
interrupt-mask nesting depth.  The kernel enter/exit primitives
(`vPortEnterCritical` / `xPortEnterCriticalTimeout` / `vPortExitCritical`)
are modelled from the spec's statement of their contract: they are
reentrant per core, entry masks interrupts and increments the nesting
depth, and exit decrements it, re-enabling interrupts only when the
outermost nesting level is left. -/

/-- Kernel-side state for the critical-section claims. -/
structure KState where
  muxes : List Nat
  irqDepth : Nat
deriving DecidableEq

/-- Spinlock nesting count of the given `portMUX_TYPE` instance. -/
def muxAt (s : KState) (id : Nat) : Nat :=
  s.muxes.getD id 0

/-- Interrupts are delivered on the calling core iff no critical-section
nesting level is currently held. -/
def intEnabled (s : KState) : Prop :=
  s.irqDepth = 0

/-- `portMUX_NO_TIMEOUT` (spin without a timeout). -/
def portMuxNoTimeout : Int := -1

/-- Rust free function `enter(cs)`: on `esp32c3`, `vPortEnterCritical()`
with no mux; on version 4.3, `vPortEnterCritical(cs.0.get())`; otherwise
`xPortEnterCriticalTimeout(cs.0.get(), portMUX_NO_TIMEOUT)`.  Modelled
from the spec on the kernel side: one kernel entry masks interrupts,
increments the core nesting depth and the instance's spinlock count. -/
def enter (cfg : Config) (id : Nat) (s : KState) : KState × List Event :=
  if cfg.esp32c3 then
    ({ s with irqDepth := s.irqDepth + 1 }, [Event.vPortEnterCriticalNoArg])
  else if cfg.espIdfVersion43 then
    ({ s with irqDepth := s.irqDepth + 1, muxes := s.muxes.set id (muxAt s id + 1) },
     [Event.vPortEnterCriticalMux id])
  else
    ({ s with irqDepth := s.irqDepth + 1, muxes := s.muxes.set id (muxAt s id + 1) },
     [Event.xPortEnterCriticalTimeoutCall id portMuxNoTimeout])

/-- Rust free function `exit(cs)`: `vPortExitCritical()` on `esp32c3`,
`vPortExitCritical(cs.0.get())` otherwise.  Modelled from the spec on the
kernel side: one kernel exit decrements the nesting depth and the
instance's spinlock count; interrupts are re-enabled when the depth
returns to zero. -/
def exit (cfg : Config) (id : Nat) (s : KState) : KState × List Event :=
  if cfg.esp32c3 then
    ({ s with irqDepth := s.irqDepth - 1 }, [Event.vPortExitCriticalNoArg])
  else
    ({ s with irqDepth := s.irqDepth - 1, muxes := s.muxes.set id (muxAt s id - 1) },
     [Event.vPortExitCriticalMux id])

/-- Rust `CriticalSection::new()`: a `const fn` constructing a fresh
`portMUX_TYPE` record with `owner: portMUX_FREE_VAL, count: 0`.  The fresh
record's identity is the next allocation index. -/
def CriticalSection.new (s : KState) : Nat × KState :=
  (s.muxes.length, { s with muxes := s.muxes ++ [0] })

/-- Rust `CriticalSection::enter(&self)`: calls `enter(self)` and returns
a guard borrowing the section (the guard is the instance identity). -/
def CriticalSection.enterGuard (cfg : Config) (id : Nat) (s : KState) :
    Nat × KState × List Event :=
  (id, enter cfg id s)

/-- Rust `Drop for CriticalSectionGuard`: calls `exit` on the borrowed
section. -/
def CriticalSectionGuard.drop (cfg : Config) (guard : Nat) (s : KState) :
    KState × List Event :=
  exit cfg guard s

/-- Rust `free(f)`: `let cs = CriticalSection::new(); let _guard =
cs.enter(); f()` — the guard is created before `f` runs and dropped when
the call returns, after `f`'s result is computed. -/
def free {α : Type} (cfg : Config) (f : KState → α × KState × List Event)
    (s : KState) : α × KState × List Event :=
  let a := CriticalSection.new s
  let e := CriticalSection.enterGuard cfg a.1 a.2
  let r := f e.2.1
  let x := CriticalSectionGuard.drop cfg e.1 r.2.1
  (r.1, x.1, e.2.2 ++ r.2.2 ++ x.2)

/-- The single kernel entry event `enter` issues for a configuration. -/
def enterEventOf (cfg : Config) (id : Nat) : Event :=
  if cfg.esp32c3 then Event.vPortEnterCriticalNoArg
  else if cfg.espIdfVersion43 then Event.vPortEnterCriticalMux id
  else Event.xPortEnterCriticalTimeoutCall id portMuxNoTimeout

/-- The single kernel exit event `exit` issues for a configuration. -/
def exitEventOf (cfg : Config) (id : Nat) : Event :=
  if cfg.esp32c3 then Event.vPortExitCriticalNoArg
  else Event.vPortExitCriticalMux id

/-- `n` successive `CriticalSection::enter` calls on the same instance
from the same core (guards accumulate). -/
def entersN (cfg : Config) (id : Nat) : Nat → KState → KState × List Event
  | 0, s => (s, [])
  | n + 1, s =>
    let a := entersN cfg id n s
    let b := CriticalSection.enterGuard cfg id a.1
    (b.2.1, a.2 ++ b.2.2)

/-- `j` successive guard drops for the same instance. -/
def dropsN (cfg : Config) (id : Nat) : Nat → KState → KState × List Event
  | 0, s => (s, [])
  | j + 1, s =>
    let a := dropsN cfg id j s
    let b := CriticalSectionGuard.drop cfg id a.1
    (b.1, a.2 ++ b.2)

/-! ## Yield-signal capture (modelled from the spec)

The capture helper described in spec section 4.5 has no implementation
under `src/`; it is modelled here from the spec's words.  A caller-supplied
callback is represented as a straight-line list of the primitive actions
available to it: requesting a yield, and installing an override while
saving the previous one / restoring the last saved one (the canonical
save/restore pattern the spec prescribes for `set_override`). -/

/-- Primitive actions a callback passed to the capture helper can take. -/
inductive YAction where
  | requestYield
  | saveAndSetYielder (v : Option Nat)
  | restoreYielder
deriving DecidableEq

/-- Modelled from the spec: the pointer identity of the recording override
installed by the capture helper (an arbitrary fixed nonnull function
pointer). -/
def recorderPtr : Nat := 1

/-- Modelled from the spec: behaviour of installed override functions —
the recording override "merely sets a boolean flag rather than performing
any kernel call"; every other override performs no action on the modelled
state. -/
def recorderEnv : Nat → YState → YState :=
  fun f s => if f = recorderPtr then { s with signalled := true } else s

/-- Run a callback's actions.  `stk` is the callback's stack of saved
previous-override words (what its local `prev` variables hold). -/
def runActions (cfg : Config) : List YAction → YState → List Nat → YState
  | [], s, _ => s
  | YAction.requestYield :: rest, s, stk =>
    runActions cfg rest (task.do_yield recorderEnv cfg s).1 stk
  | YAction.saveAndSetYielder v :: rest, s, stk =>
    let r := set_isr_yielder v s
    runActions cfg rest r.2.1 (encodeYielder r.1 :: stk)
  | YAction.restoreYielder :: rest, s, stk =>
    match stk with
    | [] => runActions cfg rest s []
    | p :: stk' =>
      runActions cfg rest (set_isr_yielder (decodeYielder p) s).2.1 stk'

/-- Modelled from the spec: `capture_yield_signal(cb)` — abort (`none`)
unless already in ISR context; otherwise clear the flag, install the
recording override saving the previous one, run `cb`, restore the previous
override, and return whether the flag was set. -/
def capture_yield_signal (cfg : Config) (cb : List YAction) (s : YState) :
    Option (Bool × YState) :=
  if active s then
    let s0 := { s with signalled := false }
    let r1 := set_isr_yielder (some recorderPtr) s0
    let s2 := runActions cfg cb r1.2.1 []
    let r2 := set_isr_yielder r1.1 s2
    some (r2.2.1.signalled, r2.2.1)
  else
    none

/-- Whether some `requestYield` step of the action list executes while the
slot word equals `fn`, tracking the slot evolution independently of the
flag mechanism (`w` = current slot word, `stk` = saved words). -/
def yieldWithInstalled (fn : Nat) : List YAction → Nat → List Nat → Bool
  | [], _, _ => false
  | YAction.requestYield :: rest, w, stk =>
    decide (w = fn) || yieldWithInstalled fn rest w stk
  | YAction.saveAndSetYielder v :: rest, w, stk =>
    yieldWithInstalled fn rest (encodeYielder v) (w :: stk)
  | YAction.restoreYielder :: rest, w, stk =>
    match stk with
    | [] => yieldWithInstalled fn rest w []
    | p :: stk' => yieldWithInstalled fn rest p stk'

/-- Whether the callback ever invokes `request_yield` at all. -/
def invokesRequestYield (cb : List YAction) : Bool :=
  cb.any fun a => decide (a = YAction.requestYield)

/-- The kernel's default ISR-context yield call for a configuration:
`vPortYieldFromISR()` on `esp32c3`, `vPortEvaluateYieldFromISR(0)` on
ESP-IDF 4.x, `_frxt_setup_switch()` otherwise. -/
def defaultIsrYieldEvent (cfg : Config) : Event :=
  if cfg.esp32c3 then Event.vPortYieldFromISR
  else if cfg.espIdfVersionMajor4 then Event.vPortEvaluateYieldFromISR 0
  else Event.frxtSetupSwitch

/-- Events that request a task switch (any outcome of `do_yield`). -/
def isYieldEvent : Event → Bool
  | Event.callYielder _ _ => true
  | Event.vPortYieldFromISR => true
  | Event.vPortEvaluateYieldFromISR _ => true
  | Event.frxtSetupSwitch => true
  | Event.vPortYield => true
  | _ => false

/-- A kernel notification-wait call that clears all consumed bits on
return (bits-to-clear-on-exit argument = `u32::MAX`). -/
def clearsAllOnExit : Event → Bool
  | Event.xTaskNotifyWaitCall _ clearOnExit _ => decide (clearOnExit = 4294967295)
  | Event.xTaskGenericNotifyWaitCall _ _ clearOnExit _ => decide (clearOnExit = 4294967295)
  | _ => false

/-! ## Spec-side formalizations used by counterexamples

These definitions follow the spec's words, not the source; each is
compared against the source-derived definitions above. -/

/-- A fixed configuration (dual-core chip, ESP-IDF 5.x) used for concrete
evaluations. -/
def cfg0 : Config :=
  { esp32c3 := false, espIdfVersionMajor4 := false, espIdfVersion43 := false }

/-- An override environment in which overrides do not touch the state. -/
def envId : Nat → YState → YState :=
  fun _ s => s

/-- Instance identities of the kernel critical-section entries appearing
in a trace. -/
def enteredIds (t : List Event) : List Nat :=
  t.filterMap fun e =>
    match e with
    | Event.vPortEnterCriticalMux id => some id
    | Event.xPortEnterCriticalTimeoutCall id _ => some id
    | _ => none

/-- Follows the spec's words (claim C1): `free` "acquires a guard on the
single process-wide CriticalSection instance" — i.e. there is one fixed
instance, and every call of `free` (here with a trivial closure) enters
exactly that instance, whatever the allocation state. -/
def specClaimProcessWideSection : Prop :=
  ∃ g : Nat, ∀ s : KState,
    enteredIds (free cfg0 (fun st => ((), st, [])) s).2.2 = [g]

/-- Follows the spec's words (claim C2): when `do_yield` finds an
installed override in ISR context, it "invokes that override with its
stored argument" — i.e. the override call passes one stored argument. -/
def specClaimOverrideCalledWithArg : Prop :=
  ∀ (s : YState) (f : Nat), s.inIsr = true → s.slot = f → f ≠ 0 →
    ∃ arg : Nat,
      Event.callYielder f [arg] ∈ (task.do_yield envId cfg0 s).2

/-- Follows the spec's words (claim C9): in ISR context the capture helper
"returns true iff cb (directly or via nested calls) invoked request_yield
at least once". -/
def specClaimCaptureIffRequestYield : Prop :=
  ∀ (cb : List YAction) (s : YState), s.inIsr = true →
    (capture_yield_signal cfg0 cb s).map Prod.fst =
      some (invokesRequestYield cb)

/-! ## Helper lemmas -/

theorem encode_decode (w : Nat) : encodeYielder (decodeYielder w) = w := by
  by_cases h : w = 0 <;> simp [decodeYielder, encodeYielder, h]

theorem do_yield_isr_override_eq (env : Nat → YState → YState)
    (cfg : Config) (s : YState) (h : s.inIsr = true) (hz : s.slot ≠ 0) :
    task.do_yield env cfg s =
      (env s.slot s,
       [Event.yielderLoad s.slot, Event.callYielder s.slot []]) := by
  rcases cfg with ⟨c3, v4, v43⟩
  cases c3 <;>
    simp [task.do_yield, get_isr_yielder, active, decodeYielder, h, hz]

theorem do_yield_isr_none_eq (env : Nat → YState → YState) (cfg : Config)
    (s : YState) (h : s.inIsr = true) (hz : s.slot = 0) :
    task.do_yield env cfg s =
      (s, [Event.yielderLoad 0, defaultIsrYieldEvent cfg]) := by
  rcases cfg with ⟨c3, v4, v43⟩
  cases c3 <;> cases v4 <;>
    simp [task.do_yield, get_isr_yielder, active, decodeYielder,
      defaultIsrYieldEvent, h, hz]

theorem do_yield_task_eq (env : Nat → YState → YState) (cfg : Config)
    (s : YState) (h : s.inIsr = false) :
    task.do_yield env cfg s = (s, [Event.vPortYield]) := by
  simp [task.do_yield, active, h]

theorem do_yield_emits_yield_event (env : Nat → YState → YState)
    (cfg : Config) (s : YState) :
    ∃ e ∈ (task.do_yield env cfg s).2, isYieldEvent e = true := by
  by_cases h : s.inIsr = true
  · by_cases hz : s.slot = 0
    · rw [do_yield_isr_none_eq env cfg s h hz]
      refine ⟨defaultIsrYieldEvent cfg, by simp, ?_⟩
      unfold defaultIsrYieldEvent
      split_ifs <;> rfl
    · rw [do_yield_isr_override_eq env cfg s h hz]
      exact ⟨Event.callYielder s.slot [], by simp, rfl⟩
  · rw [do_yield_task_eq env cfg s (by simpa using h)]
    exact ⟨Event.vPortYield, by simp, rfl⟩

/-! ## Claim theorems: the yielder registry -/

/-- Claim C3: `do_yield` dispatch.  In ISR context with an override
installed it invokes the override and performs no default yield; in ISR
context with no override it performs the kernel's default ISR-context
yield; in task context it performs the kernel's default task-context yield
unconditionally, never reading the override slot. -/
theorem do_yield_dispatch (env : Nat → YState → YState) (cfg : Config)
    (s : YState) :
    (s.inIsr = true → s.slot ≠ 0 →
      task.do_yield env cfg s =
        (env s.slot s,
         [Event.yielderLoad s.slot, Event.callYielder s.slot []])
      ∧ defaultIsrYieldEvent cfg ∉ (task.do_yield env cfg s).2
      ∧ Event.vPortYield ∉ (task.do_yield env cfg s).2)
    ∧ (s.inIsr = true → s.slot = 0 →
      task.do_yield env cfg s =
        (s, [Event.yielderLoad 0, defaultIsrYieldEvent cfg]))
    ∧ (s.inIsr = false →
      task.do_yield env cfg s = (s, [Event.vPortYield])
      ∧ ∀ w, Event.yielderLoad w ∉ (task.do_yield env cfg s).2) := by
  refine ⟨fun h hz => ?_, fun h hz => do_yield_isr_none_eq env cfg s h hz,
    fun h => ?_⟩
  · have he := do_yield_isr_override_eq env cfg s h hz
    refine ⟨he, ?_, ?_⟩
    · rw [he]
      unfold defaultIsrYieldEvent
      split_ifs <;> simp
    · rw [he]
      simp
  · have he := do_yield_task_eq env cfg s h
    exact ⟨he, fun w => by rw [he]; simp⟩

/-- Witness for C3: all three dispatch cases at concrete states. -/
theorem do_yield_dispatch_witness :
    (task.do_yield envId cfg0 ⟨true, 5, false⟩ =
      (⟨true, 5, false⟩, [Event.yielderLoad 5, Event.callYielder 5 []]))
    ∧ (task.do_yield envId cfg0 ⟨true, 0, false⟩ =
      (⟨true, 0, false⟩, [Event.yielderLoad 0, defaultIsrYieldEvent cfg0]))
    ∧ (task.do_yield envId cfg0 ⟨false, 5, false⟩ =
      (⟨false, 5, false⟩, [Event.vPortYield])) :=
  ⟨((do_yield_dispatch envId cfg0 ⟨true, 5, false⟩).1 rfl (by decide)).1,
   (do_yield_dispatch envId cfg0 ⟨true, 0, false⟩).2.1 rfl rfl,
   ((do_yield_dispatch envId cfg0 ⟨false, 5, false⟩).2.2 rfl).1⟩

/-- Claim C4: in ISR context, `set_isr_yielder(v)` followed by
`get_isr_yielder()` returns exactly `v`; `set_isr_yielder` returns the
value held by the slot immediately before the swap; and installing `none`
leaves the slot holding no override.  Installed values are function
pointers, hence nonnull. -/
theorem set_then_get_isr_yielder (s : YState) (v : Option Nat)
    (h : s.inIsr = true) (hv : ∀ f, v = some f → f ≠ 0) :
    (get_isr_yielder (set_isr_yielder v s).2.1).1 = v
    ∧ (set_isr_yielder v s).1 = decodeYielder s.slot
    ∧ (v = none → (set_isr_yielder v s).2.1.slot = 0) := by
  rcases v with _ | f
  · simp [get_isr_yielder, set_isr_yielder, active, encodeYielder,
      decodeYielder, h]
  · have hf : f ≠ 0 := hv f rfl
    simp [get_isr_yielder, set_isr_yielder, active, encodeYielder,
      decodeYielder, h, hf]

/-- Witness for C4 at a concrete ISR state and override value. -/
theorem set_then_get_isr_yielder_witness :
    (get_isr_yielder (set_isr_yielder (some 5) ⟨true, 3, false⟩).2.1).1 =
      some 5
    ∧ (set_isr_yielder (some 5) ⟨true, 3, false⟩).1 = decodeYielder 3
    ∧ (some 5 = none →
        (set_isr_yielder (some 5) ⟨true, 3, false⟩).2.1.slot = 0) :=
  set_then_get_isr_yielder ⟨true, 3, false⟩ (some 5) rfl
    (by intro f hf; cases hf; decide)

/-- Claim C10: outside ISR context, `get_isr_yielder` returns `none`
unconditionally and `set_isr_yielder` returns `none`, leaves the state
unchanged and performs no swap. -/
theorem yielder_inert_outside_isr (s : YState) (v : Option Nat)
    (h : s.inIsr = false) :
    get_isr_yielder s = (none, []) ∧ set_isr_yielder v s = (none, s, []) := by
  simp [get_isr_yielder, set_isr_yielder, active, h]

/-- Witness for C10 at a concrete task-context state. -/
theorem yielder_inert_outside_isr_witness :
    get_isr_yielder ⟨false, 5, false⟩ = (none, [])
    ∧ set_isr_yielder (some 7) ⟨false, 5, false⟩ =
        (none, ⟨false, 5, false⟩, []) :=
  yielder_inert_outside_isr ⟨false, 5, false⟩ (some 7) rfl

/-- Claim C2 (amended): the yielder slot holds an optional function
pointer packed into one atomically-swappable word — the pointer itself,
null for absence, with no argument component — and an installed override
found by `do_yield` in ISR context is invoked with no argument. -/
theorem yielder_slot_single_word_dispatch (s : YState) (v : Option Nat)
    (env : Nat → YState → YState) (cfg : Config) (h : s.inIsr = true) :
    (set_isr_yielder v s).2.1.slot = encodeYielder v
    ∧ (s.slot ≠ 0 →
        task.do_yield env cfg s =
          (env s.slot s,
           [Event.yielderLoad s.slot, Event.callYielder s.slot []])) := by
  exact ⟨by simp [set_isr_yielder, active, h],
    fun hz => do_yield_isr_override_eq env cfg s h hz⟩

/-- Witness for C2 at a concrete ISR state. -/
theorem yielder_slot_single_word_dispatch_witness :
    (set_isr_yielder (some 9) ⟨true, 5, false⟩).2.1.slot =
      encodeYielder (some 9)
    ∧ (task.do_yield envId cfg0 ⟨true, 5, false⟩ =
        (⟨true, 5, false⟩, [Event.yielderLoad 5, Event.callYielder 5 []])) :=
  ⟨(yielder_slot_single_word_dispatch ⟨true, 5, false⟩ (some 9) envId cfg0
      rfl).1,
   (yielder_slot_single_word_dispatch ⟨true, 5, false⟩ (some 9) envId cfg0
      rfl).2 (by decide)⟩

/-- Counterexample for C2 as stated: the slot stores no argument, so at a
concrete ISR state with override word `5` installed, `do_yield` invokes
the override with an empty argument list — there is no stored argument it
could pass. -/
theorem do_yield_passes_no_stored_argument :
    ¬ specClaimOverrideCalledWithArg := by
  intro h
  obtain ⟨arg, harg⟩ := h ⟨true, 5, false⟩ 5 rfl rfl (by decide)
  rw [do_yield_isr_override_eq envId cfg0 ⟨true, 5, false⟩ rfl
    (by decide)] at harg
  simp at harg

/-! ## Claim theorems: task notifications -/

theorem isYieldEvent_notifyFromIsrEvent (cfg : Config) (tsk bits : Nat) :
    isYieldEvent (task.notifyFromIsrEvent cfg tsk bits) = false := by
  unfold task.notifyFromIsrEvent
  split_ifs <;> rfl

theorem isYieldEvent_notifyTaskEvent (cfg : Config) (tsk bits : Nat) :
    isYieldEvent (task.notifyTaskEvent cfg tsk bits) = false := by
  unfold task.notifyTaskEvent
  split_ifs <;> rfl

theorem notify_result (env : Nat → YState → YState) (cfg : Config)
    (kRet kWoken : Int) (tsk bits : Nat) (s : YState) :
    (task.notify env cfg kRet kWoken tsk bits s).1 = decide (kRet ≠ 0) := by
  unfold task.notify
  split_ifs <;> rfl

/-- Claim C6: `notify` returns `false` iff the kernel notify call reports
failure, and it requests a yield before returning iff it ran in ISR
context and the kernel reported a higher-priority task woken; in task
context it never yields. -/
theorem notify_result_and_yield (env : Nat → YState → YState)
    (cfg : Config) (kRet kWoken : Int) (tsk bits : Nat) (s : YState) :
    ((task.notify env cfg kRet kWoken tsk bits s).1 = false ↔ kRet = 0)
    ∧ (s.inIsr = true → kWoken ≠ 0 →
        ∃ e ∈ (task.notify env cfg kRet kWoken tsk bits s).2.2,
          isYieldEvent e = true)
    ∧ (s.inIsr = true → kWoken = 0 →
        ∀ e ∈ (task.notify env cfg kRet kWoken tsk bits s).2.2,
          isYieldEvent e = false)
    ∧ (s.inIsr = false →
        ∀ e ∈ (task.notify env cfg kRet kWoken tsk bits s).2.2,
          isYieldEvent e = false) := by
  refine ⟨?_, fun h hw => ?_, fun h hw e he => ?_, fun h e he => ?_⟩
  · rw [notify_result]
    simp
  · have ht : (task.notify env cfg kRet kWoken tsk bits s).2.2 =
        task.notifyFromIsrEvent cfg tsk bits ::
          (task.do_yield env cfg s).2 := by
      simp [task.notify, active, h, hw]
    obtain ⟨e, he, hy⟩ := do_yield_emits_yield_event env cfg s
    rw [ht]
    exact ⟨e, List.mem_cons_of_mem _ he, hy⟩
  · have ht : (task.notify env cfg kRet kWoken tsk bits s).2.2 =
        [task.notifyFromIsrEvent cfg tsk bits] := by
      simp [task.notify, active, h, hw]
    rw [ht] at he
    simp at he
    rw [he]
    exact isYieldEvent_notifyFromIsrEvent cfg tsk bits
  · have ht : (task.notify env cfg kRet kWoken tsk bits s).2.2 =
        [task.notifyTaskEvent cfg tsk bits] := by
      simp [task.notify, active, h]
    rw [ht] at he
    simp at he
    rw [he]
    exact isYieldEvent_notifyTaskEvent cfg tsk bits

/-- Witness for C6: the three yield cases at concrete inputs. -/
theorem notify_result_and_yield_witness :
    (∃ e ∈ (task.notify envId cfg0 1 1 42 3 ⟨true, 0, false⟩).2.2,
      isYieldEvent e = true)
    ∧ (∀ e ∈ (task.notify envId cfg0 1 0 42 3 ⟨true, 0, false⟩).2.2,
        isYieldEvent e = false)
    ∧ (∀ e ∈ (task.notify envId cfg0 1 1 42 3 ⟨false, 0, false⟩).2.2,
        isYieldEvent e = false) :=
  ⟨(notify_result_and_yield envId cfg0 1 1 42 3 ⟨true, 0, false⟩).2.1 rfl
      (by decide),
   (notify_result_and_yield envId cfg0 1 0 42 3 ⟨true, 0, false⟩).2.2.1 rfl
      rfl,
   (notify_result_and_yield envId cfg0 1 1 42 3 ⟨false, 0, false⟩).2.2.2
      rfl⟩

theorem wait_notification_trace (cfg : Config) (kRet : Int) (kWord : Nat)
    (d : Option Nat) :
    (task.wait_notification cfg kRet kWord d).2 =
      [task.waitEvent cfg (task.tickTypeFrom d)] := by
  unfold task.wait_notification
  split_ifs <;> rfl

theorem clearsAllOnExit_waitEvent (cfg : Config) (ticks : Nat) :
    clearsAllOnExit (task.waitEvent cfg ticks) = true := by
  unfold task.waitEvent
  split_ifs <;> simp [clearsAllOnExit]

/-- Claim C7: `wait_notification` returns `none` exactly when the kernel
wait reports no notification within the timeout, otherwise `some` of the
notification word observed; the kernel call it issues clears all consumed
bits on return. -/
theorem wait_notification_result (cfg : Config) (kRet : Int) (kWord : Nat)
    (d : Option Nat) :
    ((task.wait_notification cfg kRet kWord d).1 = none ↔ kRet = 0)
    ∧ (kRet ≠ 0 →
        (task.wait_notification cfg kRet kWord d).1 = some kWord)
    ∧ (∀ e ∈ (task.wait_notification cfg kRet kWord d).2,
        clearsAllOnExit e = true) := by
  refine ⟨?_, fun h => by simp [task.wait_notification, h], fun e he => ?_⟩
  · by_cases h : kRet = 0 <;> simp [task.wait_notification, h]
  · rw [wait_notification_trace] at he
    simp at he
    rw [he]
    exact clearsAllOnExit_waitEvent cfg (task.tickTypeFrom d)

/-- Witness for C7 at a concrete successful wait. -/
theorem wait_notification_result_witness :
    (task.wait_notification cfg0 1 7 (some 10)).1 = some 7
    ∧ clearsAllOnExit (Event.xTaskGenericNotifyWaitCall 0 0 4294967295 10) =
        true :=
  ⟨(wait_notification_result cfg0 1 7 (some 10)).2.1 (by decide),
   (wait_notification_result cfg0 1 7 (some 10)).2.2 _ (by decide)⟩

/-- Claim C8: `wait_any_notification` loops on `wait_notification(None)`,
discarding every wake whose value is zero, and returns exactly when a
nonzero notification value has been observed among the kernel's wait
outcomes — while all observed outcomes are absent or zero it has not
returned. -/
theorem wait_any_notification_nonzero (cfg : Config)
    (responses : List (Int × Nat)) :
    ((task.wait_any_notification cfg responses).1 = true ↔
      ∃ r ∈ responses, r.1 ≠ 0 ∧ r.2 ≠ 0)
    ∧ ((task.wait_any_notification cfg responses).1 = false ↔
      ∀ r ∈ responses, r.1 = 0 ∨ r.2 = 0) := by
  have key : ∀ rs : List (Int × Nat),
      (task.wait_any_notification cfg rs).1 = true ↔
        ∃ r ∈ rs, r.1 ≠ 0 ∧ r.2 ≠ 0 := by
    intro rs
    induction rs with
    | nil => simp [task.wait_any_notification]
    | cons r rest ih =>
      by_cases h1 : r.1 = 0
      · simp [task.wait_any_notification, task.wait_notification, h1, ih]
      · by_cases h2 : r.2 = 0
        · simp [task.wait_any_notification, task.wait_notification, h1, h2,
            ih]
        · simp [task.wait_any_notification, task.wait_notification, h1, h2]
  refine ⟨key responses, ?_⟩
  rw [← Bool.not_eq_true, key responses]
  constructor
  · intro h r hr
    by_cases h1 : r.1 = 0
    · exact Or.inl h1
    · by_cases h2 : r.2 = 0
      · exact Or.inr h2
      · exact absurd ⟨r, hr, h1, h2⟩ h
  · rintro h ⟨r, hr, h1, h2⟩
    rcases h r hr with h' | h'
    · exact h1 h'
    · exact h2 h'

/-! ## Claim theorems: critical sections -/

theorem getD_set_self :
    ∀ (l : List Nat) (i v : Nat), i < l.length → (l.set i v).getD i 0 = v := by
  intro l
  induction l with
  | nil =>
    intro i v h
    simp at h
  | cons x xs ih =>
    intro i v h
    cases i with
    | zero => rfl
    | succ j =>
      simp only [List.set_cons_succ, List.getD_cons_succ]
      exact ih j v (Nat.lt_of_succ_lt_succ (by simpa using h))

theorem enter_irqDepth (cfg : Config) (id : Nat) (s : KState) :
    (enter cfg id s).1.irqDepth = s.irqDepth + 1 := by
  unfold enter
  split_ifs <;> rfl

theorem enter_muxes_length (cfg : Config) (id : Nat) (s : KState) :
    (enter cfg id s).1.muxes.length = s.muxes.length := by
  unfold enter
  split_ifs <;> simp

theorem enter_muxAt (cfg : Config) (id : Nat) (s : KState)
    (hc3 : cfg.esp32c3 = false) (hid : id < s.muxes.length) :
    muxAt (enter cfg id s).1 id = muxAt s id + 1 := by
  by_cases h43 : cfg.espIdfVersion43 = true <;>
    · simp only [enter, muxAt, hc3, h43, Bool.false_eq_true, if_false,
        if_true]
      exact getD_set_self s.muxes id (s.muxes.getD id 0 + 1) hid

theorem enter_trace (cfg : Config) (id : Nat) (s : KState) :
    (enter cfg id s).2 = [enterEventOf cfg id] := by
  unfold enter enterEventOf
  split_ifs <;> rfl

theorem exit_irqDepth (cfg : Config) (id : Nat) (s : KState) :
    (exit cfg id s).1.irqDepth = s.irqDepth - 1 := by
  unfold exit
  split_ifs <;> rfl

theorem exit_muxes_length (cfg : Config) (id : Nat) (s : KState) :
    (exit cfg id s).1.muxes.length = s.muxes.length := by
  unfold exit
  split_ifs <;> simp

theorem exit_muxAt (cfg : Config) (id : Nat) (s : KState)
    (hc3 : cfg.esp32c3 = false) (hid : id < s.muxes.length) :
    muxAt (exit cfg id s).1 id = muxAt s id - 1 := by
  simp only [exit, muxAt, hc3, Bool.false_eq_true, if_false]
  exact getD_set_self s.muxes id (s.muxes.getD id 0 - 1) hid

theorem exit_trace (cfg : Config) (id : Nat) (s : KState) :
    (exit cfg id s).2 = [exitEventOf cfg id] := by
  unfold exit exitEventOf
  split_ifs <;> rfl

theorem entersN_irqDepth (cfg : Config) (id n : Nat) (s : KState) :
    (entersN cfg id n s).1.irqDepth = s.irqDepth + n := by
  induction n with
  | zero => rfl
  | succ k ih =>
    simp only [entersN, CriticalSection.enterGuard]
    rw [enter_irqDepth, ih]
    omega

theorem entersN_muxes_length (cfg : Config) (id n : Nat) (s : KState) :
    (entersN cfg id n s).1.muxes.length = s.muxes.length := by
  induction n with
  | zero => rfl
  | succ k ih =>
    simp only [entersN, CriticalSection.enterGuard]
    rw [enter_muxes_length, ih]

theorem entersN_muxAt (cfg : Config) (id n : Nat) (s : KState)
    (hc3 : cfg.esp32c3 = false) (hid : id < s.muxes.length) :
    muxAt (entersN cfg id n s).1 id = muxAt s id + n := by
  induction n with
  | zero => rfl
  | succ k ih =>
    simp only [entersN, CriticalSection.enterGuard]
    rw [enter_muxAt cfg id _ hc3 (by rw [entersN_muxes_length]; exact hid),
      ih]
    omega

theorem entersN_trace (cfg : Config) (id n : Nat) (s : KState) :
    (entersN cfg id n s).2 = List.replicate n (enterEventOf cfg id) := by
  induction n with
  | zero => rfl
  | succ k ih =>
    simp only [entersN, CriticalSection.enterGuard]
    rw [enter_trace, ih, List.replicate_succ']

theorem dropsN_irqDepth (cfg : Config) (id j : Nat) (s : KState) :
    (dropsN cfg id j s).1.irqDepth = s.irqDepth - j := by
  induction j with
  | zero => rfl
  | succ k ih =>
    simp only [dropsN, CriticalSectionGuard.drop]
    rw [exit_irqDepth, ih]
    omega

theorem dropsN_muxes_length (cfg : Config) (id j : Nat) (s : KState) :
    (dropsN cfg id j s).1.muxes.length = s.muxes.length := by
  induction j with
  | zero => rfl
  | succ k ih =>
    simp only [dropsN, CriticalSectionGuard.drop]
    rw [exit_muxes_length, ih]

theorem dropsN_muxAt (cfg : Config) (id j : Nat) (s : KState)
    (hc3 : cfg.esp32c3 = false) (hid : id < s.muxes.length) :
    muxAt (dropsN cfg id j s).1 id = muxAt s id - j := by
  induction j with
  | zero => rfl
  | succ k ih =>
    simp only [dropsN, CriticalSectionGuard.drop]
    rw [exit_muxAt cfg id _ hc3 (by rw [dropsN_muxes_length]; exact hid),
      ih]
    omega

theorem dropsN_trace (cfg : Config) (id j : Nat) (s : KState) :
    (dropsN cfg id j s).2 = List.replicate j (exitEventOf cfg id) := by
  induction j with
  | zero => rfl
  | succ k ih =>
    simp only [dropsN, CriticalSectionGuard.drop]
    rw [exit_trace, ih, List.replicate_succ']

/-- Claim C5: for nesting depth `n ≥ 1` on the same instance from the same
core, each of the `n` enters issues exactly one kernel critical-section
entry and each of `j ≤ n` guard drops issues exactly one kernel exit;
after `j` drops the interrupt-mask depth is `n - j`, so interrupts are
re-enabled exactly when the last guard is released and never before, and
(where a spinlock exists) the section's spinlock count returns to free
exactly then. -/
theorem critical_section_nesting (cfg : Config) (s : KState) (id n j : Nat)
    (hn : 1 ≤ n) (hj : j ≤ n) (hirq : s.irqDepth = 0)
    (hmux : muxAt s id = 0) (hid : id < s.muxes.length) :
    (entersN cfg id n s).2 = List.replicate n (enterEventOf cfg id)
    ∧ (dropsN cfg id j (entersN cfg id n s).1).2 =
        List.replicate j (exitEventOf cfg id)
    ∧ (dropsN cfg id j (entersN cfg id n s).1).1.irqDepth = n - j
    ∧ (intEnabled (dropsN cfg id j (entersN cfg id n s).1).1 ↔ j = n)
    ∧ (cfg.esp32c3 = false →
        muxAt (dropsN cfg id j (entersN cfg id n s).1).1 id = n - j
        ∧ (muxAt (dropsN cfg id j (entersN cfg id n s).1).1 id = 0 ↔
            j = n)) := by
  have hirq' : (entersN cfg id n s).1.irqDepth = n := by
    rw [entersN_irqDepth, hirq]
    omega
  refine ⟨entersN_trace cfg id n s, dropsN_trace cfg id j _, ?_, ?_,
    fun hc3 => ?_⟩
  · rw [dropsN_irqDepth, hirq']
  · simp only [intEnabled]
    rw [dropsN_irqDepth, hirq']
    omega
  · have hlen : id < (entersN cfg id n s).1.muxes.length := by
      rw [entersN_muxes_length]
      exact hid
    have hm : muxAt (dropsN cfg id j (entersN cfg id n s).1).1 id = n - j := by
      rw [dropsN_muxAt cfg id j _ hc3 hlen,
        entersN_muxAt cfg id n s hc3 hid, hmux]
      omega
    refine ⟨hm, ?_⟩
    rw [hm]
    omega

/-- Witness for C5: two nested enters and one drop on a concrete state. -/
theorem critical_section_nesting_witness :
    (entersN cfg0 0 2 ⟨[0], 0⟩).2 = List.replicate 2 (enterEventOf cfg0 0)
    ∧ (dropsN cfg0 0 1 (entersN cfg0 0 2 ⟨[0], 0⟩).1).2 =
        List.replicate 1 (exitEventOf cfg0 0)
    ∧ (dropsN cfg0 0 1 (entersN cfg0 0 2 ⟨[0], 0⟩).1).1.irqDepth = 2 - 1
    ∧ (intEnabled (dropsN cfg0 0 1 (entersN cfg0 0 2 ⟨[0], 0⟩).1).1 ↔
        1 = 2)
    ∧ (cfg0.esp32c3 = false →
        muxAt (dropsN cfg0 0 1 (entersN cfg0 0 2 ⟨[0], 0⟩).1).1 0 = 2 - 1
        ∧ (muxAt (dropsN cfg0 0 1 (entersN cfg0 0 2 ⟨[0], 0⟩).1).1 0 = 0 ↔
            1 = 2)) :=
  critical_section_nesting cfg0 ⟨[0], 0⟩ 0 2 1 (by decide) (by decide) rfl
    (by decide) (by decide)

/-- Claim C1 (amended): `free(f)` constructs a fresh `CriticalSection`
(identity = the next allocation index, so not any pre-existing instance),
issues exactly one kernel entry on it before running `f`, exactly one
kernel exit on it after `f` returns, returns exactly `f`'s result, and —
for any `f` that restores the interrupt depth — leaves the interrupt-mask
depth as it found it. -/
theorem free_runs_in_fresh_critical_section {α : Type} (cfg : Config)
    (f : KState → α × KState × List Event) (s : KState)
    (hf : ∀ st, (f st).2.1.irqDepth = st.irqDepth) :
    (free cfg f s).1 =
      (f (enter cfg s.muxes.length (CriticalSection.new s).2).1).1
    ∧ (free cfg f s).2.2 =
        enterEventOf cfg s.muxes.length
          :: (f (enter cfg s.muxes.length (CriticalSection.new s).2).1).2.2
          ++ [exitEventOf cfg s.muxes.length]
    ∧ (free cfg f s).2.1.irqDepth = s.irqDepth := by
  refine ⟨rfl, ?_, ?_⟩
  · show (enter cfg s.muxes.length (CriticalSection.new s).2).2
        ++ (f (enter cfg s.muxes.length (CriticalSection.new s).2).1).2.2
        ++ (exit cfg s.muxes.length
            (f (enter cfg s.muxes.length (CriticalSection.new s).2).1).2.1).2
      = _
    rw [enter_trace, exit_trace]
    simp
  · show (exit cfg s.muxes.length
        (f (enter cfg s.muxes.length (CriticalSection.new s).2).1).2.1).1.irqDepth
      = s.irqDepth
    rw [exit_irqDepth, hf, enter_irqDepth]
    have hn0 : (CriticalSection.new s).2.irqDepth = s.irqDepth := rfl
    rw [hn0]
    omega

/-- Witness for C1 (amended) with a concrete closure and empty initial
allocation state. -/
theorem free_runs_in_fresh_critical_section_witness :
    (free cfg0 (fun st => (7, st, ([] : List Event))) ⟨[], 0⟩).1 = 7
    ∧ (free cfg0 (fun st => (7, st, ([] : List Event))) ⟨[], 0⟩).2.2 =
        enterEventOf cfg0 0 :: [] ++ [exitEventOf cfg0 0]
    ∧ (free cfg0 (fun st => (7, st, ([] : List Event)))
        ⟨[], 0⟩).2.1.irqDepth = 0 :=
  free_runs_in_fresh_critical_section cfg0
    (fun st => (7, st, ([] : List Event))) ⟨[], 0⟩ (fun _ => rfl)

/-- Counterexample for C1 as stated: no fixed process-wide instance is
entered by `free` — two calls from different allocation states enter two
different freshly constructed instances (indices 0 and 1). -/
theorem free_not_process_wide : ¬ specClaimProcessWideSection := by
  rintro ⟨g, h⟩
  have e0 : enteredIds
      (free cfg0 (fun st => ((), st, [])) (⟨[], 0⟩ : KState)).2.2 = [0] := rfl
  have e1 : enteredIds
      (free cfg0 (fun st => ((), st, [])) (⟨[0], 0⟩ : KState)).2.2 = [1] := rfl
  have g0 := e0.symm.trans (h ⟨[], 0⟩)
  have g1 := e1.symm.trans (h ⟨[0], 0⟩)
  injection g0 with a0 b0
  injection g1 with a1 b1
  omega

/-! ## Claim theorems: yield-signal capture -/

theorem set_isr_yielder_signalled (v : Option Nat) (t : YState) :
    (set_isr_yielder v t).2.1.signalled = t.signalled := by
  rcases t with ⟨ti, tsl, tsig⟩
  cases ti <;> rfl

theorem set_isr_yielder_inIsr (v : Option Nat) (t : YState) :
    (set_isr_yielder v t).2.1.inIsr = t.inIsr := by
  rcases t with ⟨ti, tsl, tsig⟩
  cases ti <;> rfl

theorem set_isr_yielder_slot_isr (v : Option Nat) (t : YState)
    (ht : t.inIsr = true) :
    (set_isr_yielder v t).2.1.slot = encodeYielder v := by
  rcases t with ⟨ti, tsl, tsig⟩
  cases ti
  · simp at ht
  · rfl

theorem runActions_spec (cfg : Config) :
    ∀ (cb : List YAction) (s : YState) (stk : List Nat), s.inIsr = true →
      (runActions cfg cb s stk).inIsr = true
      ∧ (runActions cfg cb s stk).signalled =
          (s.signalled ||
            yieldWithInstalled recorderPtr cb s.slot stk) := by
  intro cb
  induction cb with
  | nil =>
    intro s stk h
    exact ⟨h, by simp [runActions, yieldWithInstalled]⟩
  | cons a rest ih =>
    intro s stk h
    cases a with
    | requestYield =>
      by_cases hz : s.slot = 0
      · have hy : (task.do_yield recorderEnv cfg s).1 = s := by
          rw [do_yield_isr_none_eq recorderEnv cfg s h hz]
        have step : runActions cfg (YAction.requestYield :: rest) s stk =
            runActions cfg rest s stk := by
          simp only [runActions, hy]
        rw [step]
        obtain ⟨hi, hs⟩ := ih s stk h
        refine ⟨hi, ?_⟩
        rw [hs]
        simp [yieldWithInstalled, hz, recorderPtr]
      · by_cases hr : s.slot = recorderPtr
        · have hy : (task.do_yield recorderEnv cfg s).1 =
              { s with signalled := true } := by
            rw [do_yield_isr_override_eq recorderEnv cfg s h hz]
            simp [recorderEnv, hr]
          have step : runActions cfg (YAction.requestYield :: rest) s stk =
              runActions cfg rest { s with signalled := true } stk := by
            simp only [runActions, hy]
          rw [step]
          obtain ⟨hi, hs⟩ := ih { s with signalled := true } stk h
          refine ⟨hi, ?_⟩
          rw [hs]
          simp [yieldWithInstalled, hr]
        · have hy : (task.do_yield recorderEnv cfg s).1 = s := by
            rw [do_yield_isr_override_eq recorderEnv cfg s h hz]
            simp [recorderEnv, hr]
          have step : runActions cfg (YAction.requestYield :: rest) s stk =
              runActions cfg rest s stk := by
            simp only [runActions, hy]
          rw [step]
          obtain ⟨hi, hs⟩ := ih s stk h
          refine ⟨hi, ?_⟩
          rw [hs]
          simp [yieldWithInstalled, hr]
    | saveAndSetYielder v =>
      have hnew : (set_isr_yielder v s).2.1 =
          { s with slot := encodeYielder v } := by
        rcases s with ⟨i, sl, sig⟩
        have hi : i = true := h
        subst hi
        rfl
      have hprev : encodeYielder (set_isr_yielder v s).1 = s.slot := by
        rcases s with ⟨i, sl, sig⟩
        have hi : i = true := h
        subst hi
        exact encode_decode sl
      have step : runActions cfg (YAction.saveAndSetYielder v :: rest) s stk =
          runActions cfg rest { s with slot := encodeYielder v }
            (s.slot :: stk) := by
        simp only [runActions, hnew, hprev]
      rw [step]
      obtain ⟨hi, hs⟩ := ih { s with slot := encodeYielder v }
        (s.slot :: stk) h
      refine ⟨hi, ?_⟩
      rw [hs]
      rfl
    | restoreYielder =>
      cases stk with
      | nil =>
        have step : runActions cfg (YAction.restoreYielder :: rest) s [] =
            runActions cfg rest s [] := by
          simp only [runActions]
        rw [step]
        obtain ⟨hi, hs⟩ := ih s [] h
        exact ⟨hi, by rw [hs]; simp [yieldWithInstalled]⟩
      | cons p stk' =>
        have hnew : (set_isr_yielder (decodeYielder p) s).2.1 =
            { s with slot := p } := by
          rcases s with ⟨i, sl, sig⟩
          have hi : i = true := h
          subst hi
          show (⟨true, encodeYielder (decodeYielder p), sig⟩ : YState) = _
          rw [encode_decode]
        have step : runActions cfg (YAction.restoreYielder :: rest) s
            (p :: stk') =
            runActions cfg rest { s with slot := p } stk' := by
          simp only [runActions, hnew]
        rw [step]
        obtain ⟨hi, hs⟩ := ih { s with slot := p } stk' h
        exact ⟨hi, by rw [hs]; simp [yieldWithInstalled]⟩

/-- Claim C9 (amended, modelled from the spec): outside ISR context the
capture helper aborts; in ISR context it returns `true` iff the callback
invoked `request_yield` at least once at a moment when the recording
override was the installed override, and the previously installed override
word is restored bit-for-bit regardless of the callback's own installs and
restores. -/
theorem capture_yield_signal_behavior (cfg : Config) (cb : List YAction)
    (s : YState) :
    (s.inIsr = false → capture_yield_signal cfg cb s = none)
    ∧ (s.inIsr = true →
        ∃ s' : YState,
          capture_yield_signal cfg cb s =
            some (yieldWithInstalled recorderPtr cb recorderPtr [], s')
          ∧ s'.slot = s.slot ∧ s'.inIsr = true) := by
  constructor
  · intro h
    simp [capture_yield_signal, active, h]
  · intro h
    rcases s with ⟨i, sl, sig⟩
    have hi : i = true := h
    subst hi
    obtain ⟨hi2, hsig2⟩ :=
      runActions_spec cfg cb ⟨true, recorderPtr, false⟩ [] rfl
    refine ⟨(set_isr_yielder (decodeYielder sl)
        (runActions cfg cb ⟨true, recorderPtr, false⟩ [])).2.1, ?_, ?_, ?_⟩
    · have hflag : (set_isr_yielder (decodeYielder sl)
          (runActions cfg cb ⟨true, recorderPtr, false⟩ [])).2.1.signalled =
          yieldWithInstalled recorderPtr cb recorderPtr [] := by
        rw [set_isr_yielder_signalled, hsig2]
        simp
      rw [← hflag]
      rfl
    · rw [set_isr_yielder_slot_isr _ _ hi2, encode_decode]
    · rw [set_isr_yielder_inIsr]
      exact hi2

/-- Witness for C9 (amended): a callback that requests one yield, at a
concrete ISR state. -/
theorem capture_yield_signal_behavior_witness :
    ∃ s' : YState,
      capture_yield_signal cfg0 [YAction.requestYield] ⟨true, 0, false⟩ =
        some (yieldWithInstalled recorderPtr [YAction.requestYield]
          recorderPtr [], s')
      ∧ s'.slot = (⟨true, 0, false⟩ : YState).slot ∧ s'.inIsr = true :=
  (capture_yield_signal_behavior cfg0 [YAction.requestYield]
    ⟨true, 0, false⟩).2 rfl

/-- Counterexample for C9 as stated: a callback that installs its own
override, requests a yield while that nested override is installed, and
restores — `request_yield` was invoked once, yet the capture helper
reports `false`, because the yield routed to the nested override rather
than the recording one. -/
theorem capture_not_iff_any_request_yield :
    ¬ specClaimCaptureIffRequestYield := by
  intro h
  have hc := h [YAction.saveAndSetYielder (some 7), YAction.requestYield,
    YAction.restoreYielder] ⟨true, 0, false⟩ rfl
  exact absurd hc (by decide)

end EspIdfHal
